import Mathlib

/-
Verification of the tensara execution engine (engine/utils.py) against its
natural-language specification.  The Python functions are shallowly embedded
as Lean definitions; external effects (the nvcc subprocess, the dynamic
loader, wall-clock time, the inter-process queue) are modelled as explicit
oracles or traces passed in as parameters.
-/

set_option autoImplicit false

namespace Tensara

/-! ## Artifact cache: `run_nvcc_and_return_bytes` with `functools.lru_cache`

The cache key is the exact argument tuple `(gpu, solution_code, output_name)`;
`lru_cache` compares tuples by equality of their components, with no
normalization of the strings.  Crucially, `lru_cache` stores only *returned*
values: when the wrapped function raises (`NVCCError` on a non-zero compiler
exit, `KeyError` on an unsupported gpu name), nothing is inserted into the
cache.  The external toolchain is modelled as a deterministic oracle
`tool : CompileKey → ToolResult` (nvcc output is deterministic for identical
gpu/source/output inputs).  The `invoked` flag records whether
`subprocess.run` was executed during the call. -/

/-- Compiled artifact bytes, abstracted as a list of byte values. -/
abbrev Bytes := List Nat

/-- The argument tuple of `run_nvcc_and_return_bytes`; `lru_cache` keys the
cache on exactly this tuple. -/
structure CompileKey where
  gpu : String
  solution_code : String
  output_name : String
deriving DecidableEq, Repr

/-- Outcome of one `subprocess.run` of nvcc: zero exit with the produced
binary bytes, or non-zero exit with the stderr text. -/
inductive ToolResult where
  | ok (bytes : Bytes)
  | err (stderr : String)
deriving DecidableEq, Repr

/-- The fixed device table `GPU_COMPUTE_CAPABILITIES` from the source. -/
def GPU_COMPUTE_CAPABILITIES : List (String × String) :=
  [("T4", "75"), ("H100", "90"), ("A100-80GB", "80"),
   ("A10G", "86"), ("L40S", "89"), ("L4", "89")]

/-- `GPU_COMPUTE_CAPABILITIES[gpu]`: `none` models the `KeyError` raised for
an unsupported device name. -/
def lookupGpu : List (String × String) → String → Option String
  | [], _ => none
  | e :: rest, gpu => if e.1 = gpu then some e.2 else lookupGpu rest gpu

/-- `nvcc_command(gpu, srcs, out)`: builds the nvcc argument vector.  Returns
`none` when the device lookup raises `KeyError` (the lookup happens before
any flag is assembled, so no command exists for unsupported devices). -/
def nvcc_command (gpu : String) (srcs : List String) (out : String) :
    Option (List String) :=
  match lookupGpu GPU_COMPUTE_CAPABILITIES gpu with
  | none => none
  | some sm =>
      some (["nvcc", "-std=c++20", "-O2", "-Xcompiler", "-fPIC"]
        ++ ["-arch=compute_" ++ sm, "-code=sm_" ++ sm]
        ++ (if out.endsWith ".so" then ["-shared"] else [])
        ++ ["-o", out] ++ srcs)

/-- `maxsize=512` of the `lru_cache` decorator. -/
def lru_maxsize : Nat := 512

/-- The lru_cache store: key/value pairs, most recently used first. -/
structure CacheState where
  entries : List (CompileKey × Bytes)
deriving DecidableEq, Repr

/-- Cache lookup by exact key equality (component-wise string equality of the
argument tuple, no normalization). -/
def lookupEntries : List (CompileKey × Bytes) → CompileKey → Option Bytes
  | [], _ => none
  | e :: rest, k => if e.1 = k then some e.2 else lookupEntries rest k

/-- Drop the entry for key `k` (used when a hit moves an entry to the
most-recently-used position). -/
def removeEntry : List (CompileKey × Bytes) → CompileKey → List (CompileKey × Bytes)
  | [], _ => []
  | e :: rest, k => if e.1 = k then rest else e :: removeEntry rest k

/-- Result of the whole Python call, distinguishing the value returned from
the exceptions it can raise. -/
inductive CompileOutcome where
  | ok (bytes : Bytes)
  /-- `raise NVCCError(process.stderr)` on non-zero compiler exit; this is the
  `CompileError(stderr)` of the specification. -/
  | nvccError (stderr : String)
  /-- `KeyError` from `GPU_COMPUTE_CAPABILITIES[gpu]`; the `ConfigError` of
  the specification. -/
  | keyError (gpu : String)
deriving DecidableEq, Repr

/-- Observable result of one call to the cached `run_nvcc_and_return_bytes`:
the outcome, the cache state afterwards, and whether the external toolchain
subprocess was invoked during the call. -/
structure CompileCall where
  result : CompileOutcome
  cache : CacheState
  invoked : Bool
deriving DecidableEq, Repr

/-- One call of `run_nvcc_and_return_bytes(gpu, solution_code, output_name)`
under `@lru_cache(maxsize=512)`.  On a hit the cached bytes are returned and
the entry becomes most recent; on a miss the body runs: `nvcc_command` (which
raises `KeyError` before any subprocess runs if the gpu is unsupported), then
`subprocess.run` (the oracle `tool`).  A zero exit returns the artifact bytes,
which `lru_cache` stores, evicting beyond `maxsize` entries; a non-zero exit
raises `NVCCError(stderr)`, and an exception is never stored by `lru_cache`.
The temporary output path always ends in `.so` per the
`suffix=".lib{output_name}.so"` argument; the temporary build directory and
its random name do not affect the outcome and are elided. -/
def run_nvcc_and_return_bytes (tool : CompileKey → ToolResult)
    (st : CacheState) (k : CompileKey) : CompileCall :=
  match lookupEntries st.entries k with
  | some b => ⟨.ok b, ⟨(k, b) :: removeEntry st.entries k⟩, false⟩
  | none =>
      match nvcc_command k.gpu ["solution.cu"] ("tmp.lib" ++ k.output_name ++ ".so") with
      | none => ⟨.keyError k.gpu, st, false⟩
      | some _cmd =>
          match tool k with
          | .ok b => ⟨.ok b, ⟨((k, b) :: st.entries).take lru_maxsize⟩, true⟩
          | .err s => ⟨.nvccError s, st, true⟩

/-! ## Problem adapter: `cast_to_ctype` and the argument assembly of
`run_dynamic_benchmark`

`cast_to_ctype` zips the data with the argtype slice — Python `zip` silently
truncates to the shorter list, so no length check happens there.  In
`run_dynamic_benchmark`, `solution_func.argtypes[len(input_tensors)]` is the
only place an out-of-range index can raise (`IndexError`); the slices
`argtypes[:n]` and `argtypes[-e:]` never raise.  ctype objects are abstracted
as opaque `Nat` identifiers. -/

/-- A value passed to the adapter: a torch tensor (identified by its device
address `data_ptr`) or a plain scalar. -/
inductive DataVal where
  | tensor (data_ptr : Nat)
  | scalar (v : Int)
deriving DecidableEq, Repr

/-- A call-ready argument produced by the adapter: `ctypes.cast(ptr, argtype)`
for tensors, `argtype(value)` for scalars, or the unchanged datum on the
non-cuda branch. -/
inductive CastedArg where
  | ptrCast (data_ptr : Nat) (argtype : Nat)
  | valCast (v : Int) (argtype : Nat)
  | raw (d : DataVal)
deriving DecidableEq, Repr

/-- `cast_to_ctype(data, argtypes, language)`: on the cuda branch, zip data
with argtypes and cast slot-wise (zip truncation included); otherwise return
the data unchanged. -/
def cast_to_ctype (data : List DataVal) (argtypes : List Nat)
    (language : String) : List CastedArg :=
  if language = "cuda" then
    List.zipWith
      (fun d t =>
        match d with
        | .tensor p => CastedArg.ptrCast p t
        | .scalar v => CastedArg.valCast v t)
      data argtypes
  else
    data.map CastedArg.raw

/-- Python negative-end slice `l[-e:]`: for `e = 0` this is `l[0:] = l`
(since `-0 = 0`), otherwise the last `min e (length l)` elements. -/
def pyNegSlice {α : Type} (l : List α) (e : Nat) : List α :=
  if e = 0 then l else l.drop (l.length - e)

/-- The cuda-branch argument assembly of `run_dynamic_benchmark`: slices of
`solution_func.argtypes` are cast against the input tensors, the output
tensor address, and the extra scalar parameters, and concatenated in call
order.  `none` models the `IndexError` raised by
`argtypes[len(input_tensors)]` when the declared arity is too small; no other
arity validation exists anywhere on this path. -/
def prepare_call_args (argtypes : List Nat) (input_tensors : List DataVal)
    (output_data_ptr : Nat) (extra_params : List DataVal) :
    Option (List CastedArg) :=
  let input_ptrs := cast_to_ctype input_tensors
    (argtypes.take input_tensors.length) "cuda"
  match argtypes.get? input_tensors.length with
  | none => none
  | some t =>
      let output_ptr := CastedArg.ptrCast output_data_ptr t
      let extras := cast_to_ctype extra_params
        (pyNegSlice argtypes extra_params.length) "cuda"
      some (input_ptrs ++ [output_ptr] ++ extras)

/-! ## Benchmark driver: the timing loop of `run_dynamic_benchmark`

Wall-clock time (`time.time()`) and the cuda-event measurement of iteration
`i` are supplied as oracles `wall i` and `dev i` (both in seconds; the code
divides `elapsed_time` milliseconds by 1000).  The loop
`while time.time() - start < max_runtime or len(runtimes) < min_iters` is
embedded with explicit fuel so the definition is total and executable; `none`
means the fuel ran out before the stopping condition was reached. -/

/-- `min_iters = 3` from the source. -/
def min_iters : Nat := 3

/-- `max_runtime = 1` (seconds) from the source. -/
def max_runtime : ℚ := 1

/-- The benchmark loop: `elapsed` is `time.time() - start` at the guard,
`acc` is the `runtimes` list collected so far.  While
`elapsed < max_runtime ∨ acc.length < min_iters` holds, one more timed
invocation runs, advancing the wall clock by `wall i` and appending the
device-measured runtime `dev i`. -/
def benchLoop (wall dev : Nat → ℚ) :
    Nat → Nat → ℚ → List ℚ → Option (List ℚ)
  | 0, _, elapsed, acc =>
      if elapsed < max_runtime ∨ acc.length < min_iters then none
      else some acc
  | fuel + 1, i, elapsed, acc =>
      if elapsed < max_runtime ∨ acc.length < min_iters then
        benchLoop wall dev fuel (i + 1) (elapsed + wall i) (acc ++ [dev i])
      else some acc

/-- Python `min(runtimes)`: `none` models the `ValueError` on an empty list
(unreachable after the loop, which always collects at least one sample). -/
def pyListMin : List ℚ → Option ℚ
  | [] => none
  | r :: rs => some (rs.foldl min r)

/-- The `benchmark_result` dict.  The source stores `len(runtimes)` under the
`"runtime_ms"` key. -/
structure BenchmarkResult where
  name : String
  test_id : Nat
  gflops : ℚ
  runtime_ms : Nat
deriving DecidableEq, Repr

/-- `run_dynamic_benchmark` after argument preparation: run the timing loop,
then reduce with `best_runtime = min(runtimes)` and
`best_gflops = (flops / best_runtime) / 1e9`. -/
def run_dynamic_benchmark (wall dev : Nat → ℚ) (flops : ℚ) (name : String)
    (test_id : Nat) (fuel : Nat) : Option BenchmarkResult :=
  match benchLoop wall dev fuel 0 0 [] with
  | none => none
  | some runtimes =>
      match pyListMin runtimes with
      | none => none
      | some best => some ⟨name, test_id, flops / best / 1000000000, runtimes.length⟩

/-! ## Sandboxed runner: `subproc_generator`

The worker side (`subproc_wrapper`) iterates the wrapped generator inside a
`try` block, putting each event on the queue, and its `finally` clause puts
the `None` sentinel — also when the generator raises a Python exception
partway.  A run of the work function is modelled by which events it manages
to emit and whether it then completes or raises.  The queue is the ordered
single-producer channel of `multiprocessing`; the caller side polls it with
`my_queue.get(timeout=timeout)` and a trace of receive outcomes drives the
caller loop.  The f-string
`"Execution exceeded time limit of {timeout:.2f}s"` is modelled by carrying
the numeric deadline in the synthetic event. -/

/-- Behaviour of one run of the wrapped work function in the worker process:
it emits `evs` and then either returns normally or raises a Python-level
exception. -/
inductive WorkBehavior (α : Type) where
  | completes (evs : List α)
  | raisesAfter (evs : List α)
deriving DecidableEq, Repr

/-- The events the `for ev in result` loop manages to put on the queue. -/
def workerEvents {α : Type} : WorkBehavior α → List α
  | .completes evs => evs
  | .raisesAfter evs => evs

/-- `subproc_wrapper`: the full queue content produced by the worker — the
emitted events, then the `None` sentinel from the `finally` clause (which
runs on normal completion and on an exception alike). -/
def subproc_wrapper {α : Type} (wb : WorkBehavior α) : List (Option α) :=
  (workerEvents wb).map some ++ [none]

/-- Outcome of one `my_queue.get(timeout=timeout)`: an item (a worker event
`some a` or the sentinel `none`), or the `queue.Empty` timeout. -/
inductive Recv (α : Type) where
  | item (e : Option α)
  | timedOut
deriving DecidableEq, Repr

/-- The synthetic timeout dict yielded by the caller: its `"status"` and
`"message"` strings, and the deadline interpolated into `"details"`. -/
structure TLEInfo where
  status : String
  message : String
  deadline : ℚ
deriving DecidableEq, Repr

/-- The dict `status: TIME_LIMIT_EXCEEDED, message: Time Limit Exceeded,
details: Execution exceeded time limit of {timeout:.2f}s`. -/
def tle_event (timeout : ℚ) : TLEInfo :=
  ⟨"TIME_LIMIT_EXCEEDED", "Time Limit Exceeded", timeout⟩

/-- An event yielded by the caller-side generator: a queue item forwarded by
`yield event` (worker event or the `None` sentinel), or the synthetic
timeout dict. -/
inductive OutEv (α : Type) where
  | ev (e : Option α)
  | tle (info : TLEInfo)
deriving DecidableEq, Repr

/-- A terminal event of the yielded stream: the `None` sentinel (normal
completion) or the synthetic timeout dict. -/
def isTerminal {α : Type} : OutEv α → Bool
  | .ev none => true
  | .ev (some _) => false
  | .tle _ => true

/-- The caller loop of `subproc_generator`: process receive outcomes in
order.  An item is yielded, and the loop breaks after yielding the `None`
sentinel; on `queue.Empty` the synthetic timeout event is yielded,
`proc.terminate()` is called (the returned flag), and the loop breaks.  The
empty-trace case is unreachable for well-formed traces, since a blocking
`get` always ends in an item or a timeout. -/
def caller_loop {α : Type} (timeout : ℚ) :
    List (Recv α) → List (OutEv α) × Bool
  | [] => ([], false)
  | .timedOut :: _ => ([.tle (tle_event timeout)], true)
  | .item none :: _ => ([.ev none], false)
  | .item (some a) :: rest =>
      let r := caller_loop timeout rest
      (.ev (some a) :: r.1, r.2)

/-- The whole runner for a worker that stays alive: the caller receives
exactly the queue contents of `subproc_wrapper`, in FIFO order. -/
def subproc_run {α : Type} (timeout : ℚ) (wb : WorkBehavior α) :
    List (OutEv α) × Bool :=
  caller_loop timeout ((subproc_wrapper wb).map Recv.item)

/-! ## Native loader: `read_bytes_as_cuda_lib`

The filesystem of temporary files is a list of name/content pairs with names
abstracted as naturals; `tempfile.NamedTemporaryFile` picks a name not in
use.  `ctypes.CDLL` is an oracle that either yields a library handle or
raises (`OSError` on malformed bytes); the `finally` clause unlinks the
temporary file on both paths. -/

/-- On-disk temporary files: name/content pairs. -/
abbrev FileSys := List (Nat × Bytes)

/-- A fresh temporary-file name: strictly larger than every name in use, so
never a member of the current filesystem. -/
def fresh_temp_name (fs : FileSys) : Nat :=
  (fs.map Prod.fst).foldr max 0 + 1

/-- Outcome of `ctypes.CDLL` on the temporary path: a live handle, or the
load error raised for bytes that are not a valid module. -/
inductive LoadOutcome where
  | loaded (handle : Nat)
  | loadError (msg : String)
deriving DecidableEq, Repr

/-- `read_bytes_as_cuda_lib(compiled_lib)` on the bytes branch: create a
uniquely named temporary file, write the bytes and close, call
`ctypes.CDLL` on the path, and in the `finally` clause unlink the file if it
exists — whether or not the load succeeded. -/
def read_bytes_as_cuda_lib (cdll : Bytes → LoadOutcome)
    (compiled_lib : Bytes) (fs : FileSys) : LoadOutcome × FileSys :=
  let name := fresh_temp_name fs
  let fs1 := (name, compiled_lib) :: fs
  let result := cdll compiled_lib
  let fs2 :=
    if (fs1.map Prod.fst).contains name then
      fs1.eraseP (fun e => e.1 == name)
    else fs1
  (result, fs2)

/-! ## Concrete instances used by counterexamples and witnesses -/

/-- A toolchain oracle for a source that never compiles: every invocation
exits non-zero with the same diagnostic. -/
def toolFail : CompileKey → ToolResult :=
  fun _ => .err "error: expected a semicolon"

/-- A toolchain oracle for a source that always compiles to the bytes
`[1, 2, 3]`. -/
def toolOk : CompileKey → ToolResult := fun _ => .ok [1, 2, 3]

/-- A key whose source has a syntax error. -/
def keyBad : CompileKey := ⟨"T4", "bad kernel source", "solution"⟩

/-- A key whose source compiles. -/
def keyGood : CompileKey := ⟨"T4", "good kernel source", "solution"⟩

/-- `keyGood` with one extra space in the source: a distinct cache key under
exact string equality. -/
def keyGood2 : CompileKey := ⟨"T4", "good  kernel source", "solution"⟩

/-- The empty cache, as at process start. -/
def emptyCache : CacheState := ⟨[]⟩

/-- Wall-clock oracle of a slow kernel: every timed call takes 2 seconds. -/
def wallSlow : Nat → ℚ := fun _ => 2

/-- Device-timer oracle measuring 0.5 s per call. -/
def devHalf : Nat → ℚ := fun _ => 1 / 2

/-- Device-timer oracle measuring 0.001 s per call. -/
def devMs : Nat → ℚ := fun _ => 1 / 1000

/-! ## Helper lemmas -/

theorem lookupGpu_eq_none_iff (l : List (String × String)) (g : String) :
    lookupGpu l g = none ↔ g ∉ l.map Prod.fst := by
  induction l with
  | nil => simp [lookupGpu]
  | cons e rest ih =>
      rcases eq_or_ne e.1 g with h | h
      · simp [lookupGpu, h]
      · simp [lookupGpu, h, Ne.symm h, ih]

theorem lookupEntries_eq_none (l : List (CompileKey × Bytes)) (k : CompileKey)
    (h : ∀ e ∈ l, e.1 ≠ k) : lookupEntries l k = none := by
  induction l with
  | nil => rfl
  | cons e rest ih =>
      have he : e.1 ≠ k := h e (by simp)
      simp only [lookupEntries, if_neg he]
      exact ih (fun x hx => h x (by simp [hx]))

theorem lookupEntries_removeEntry_none (l : List (CompileKey × Bytes))
    (k k2 : CompileKey) (h : lookupEntries l k2 = none) :
    lookupEntries (removeEntry l k) k2 = none := by
  induction l with
  | nil => rfl
  | cons e rest ih =>
      by_cases he2 : e.1 = k2
      · simp [lookupEntries, he2] at h
      · simp only [lookupEntries, if_neg he2] at h
        by_cases hek : e.1 = k
        · simpa [removeEntry, hek] using h
        · simp [removeEntry, hek, lookupEntries, he2, ih h]

theorem lookupEntries_take_none (l : List (CompileKey × Bytes))
    (k2 : CompileKey) (n : Nat) (h : lookupEntries l k2 = none) :
    lookupEntries (l.take n) k2 = none := by
  induction l generalizing n with
  | nil => simp [lookupEntries]
  | cons e rest ih =>
      cases n with
      | zero => rfl
      | succ m =>
          by_cases he2 : e.1 = k2
          · simp [lookupEntries, he2] at h
          · simp only [lookupEntries, if_neg he2] at h
            simp [List.take_succ_cons, lookupEntries, he2, ih m h]

theorem run_hit (tool : CompileKey → ToolResult) (st : CacheState)
    (k : CompileKey) (b : Bytes) (h : lookupEntries st.entries k = some b) :
    run_nvcc_and_return_bytes tool st k
      = ⟨.ok b, ⟨(k, b) :: removeEntry st.entries k⟩, false⟩ := by
  simp [run_nvcc_and_return_bytes, h]

theorem run_miss_config (tool : CompileKey → ToolResult) (st : CacheState)
    (k : CompileKey) (h : lookupEntries st.entries k = none)
    (hg : lookupGpu GPU_COMPUTE_CAPABILITIES k.gpu = none) :
    run_nvcc_and_return_bytes tool st k = ⟨.keyError k.gpu, st, false⟩ := by
  simp [run_nvcc_and_return_bytes, nvcc_command, h, hg]

theorem run_miss_ok (tool : CompileKey → ToolResult) (st : CacheState)
    (k : CompileKey) (sm : String) (b : Bytes)
    (h : lookupEntries st.entries k = none)
    (hg : lookupGpu GPU_COMPUTE_CAPABILITIES k.gpu = some sm)
    (ht : tool k = .ok b) :
    run_nvcc_and_return_bytes tool st k
      = ⟨.ok b, ⟨((k, b) :: st.entries).take lru_maxsize⟩, true⟩ := by
  simp [run_nvcc_and_return_bytes, nvcc_command, h, hg, ht]

theorem run_miss_err (tool : CompileKey → ToolResult) (st : CacheState)
    (k : CompileKey) (sm : String) (s : String)
    (h : lookupEntries st.entries k = none)
    (hg : lookupGpu GPU_COMPUTE_CAPABILITIES k.gpu = some sm)
    (ht : tool k = .err s) :
    run_nvcc_and_return_bytes tool st k = ⟨.nvccError s, st, true⟩ := by
  simp [run_nvcc_and_return_bytes, nvcc_command, h, hg, ht]

theorem lookup_cache_of_ok (tool : CompileKey → ToolResult) (st : CacheState)
    (k : CompileKey) (b : Bytes)
    (h : (run_nvcc_and_return_bytes tool st k).result = CompileOutcome.ok b) :
    lookupEntries (run_nvcc_and_return_bytes tool st k).cache.entries k = some b := by
  cases h1 : lookupEntries st.entries k with
  | some b0 =>
      rw [run_hit tool st k b0 h1] at h ⊢
      simp at h
      subst h
      simp [lookupEntries]
  | none =>
      cases hg : lookupGpu GPU_COMPUTE_CAPABILITIES k.gpu with
      | none => rw [run_miss_config tool st k h1 hg] at h; simp at h
      | some sm =>
          cases ht : tool k with
          | ok b0 =>
              rw [run_miss_ok tool st k sm b0 h1 hg ht] at h ⊢
              simp at h
              subst h
              rw [show lru_maxsize = 511 + 1 from rfl, List.take_succ_cons]
              simp [lookupEntries]
          | err s => rw [run_miss_err tool st k sm s h1 hg ht] at h; simp at h

theorem lookup_after_run_none (tool : CompileKey → ToolResult)
    (st : CacheState) (k k2 : CompileKey) (hne : k2 ≠ k)
    (h : lookupEntries st.entries k2 = none) :
    lookupEntries (run_nvcc_and_return_bytes tool st k).cache.entries k2 = none := by
  have hkk : ¬ (k = k2) := fun hh => hne hh.symm
  cases h1 : lookupEntries st.entries k with
  | some b0 =>
      rw [run_hit tool st k b0 h1]
      simp only [lookupEntries, if_neg hkk]
      exact lookupEntries_removeEntry_none st.entries k k2 h
  | none =>
      cases hg : lookupGpu GPU_COMPUTE_CAPABILITIES k.gpu with
      | none => rw [run_miss_config tool st k h1 hg]; exact h
      | some sm =>
          cases ht : tool k with
          | ok b0 =>
              rw [run_miss_ok tool st k sm b0 h1 hg ht]
              rw [show lru_maxsize = 511 + 1 from rfl, List.take_succ_cons]
              simp only [lookupEntries, if_neg hkk]
              exact lookupEntries_take_none st.entries k2 511 h
          | err s => rw [run_miss_err tool st k sm s h1 hg ht]; exact h

theorem invoked_of_miss (tool : CompileKey → ToolResult) (st : CacheState)
    (k : CompileKey) (h : lookupEntries st.entries k = none)
    (hg : lookupGpu GPU_COMPUTE_CAPABILITIES k.gpu ≠ none) :
    (run_nvcc_and_return_bytes tool st k).invoked = true := by
  cases hg1 : lookupGpu GPU_COMPUTE_CAPABILITIES k.gpu with
  | none => exact absurd hg1 hg
  | some sm =>
      cases ht : tool k with
      | ok b => rw [run_miss_ok tool st k sm b h hg1 ht]
      | err s => rw [run_miss_err tool st k sm s h hg1 ht]

theorem caller_loop_items {α : Type} (t : ℚ) (ws : List α) (tail : List (Recv α)) :
    caller_loop t (ws.map (fun a => Recv.item (some a)) ++ tail)
      = ((ws.map (fun a => OutEv.ev (some a))) ++ (caller_loop t tail).1,
         (caller_loop t tail).2) := by
  induction ws with
  | nil => simp
  | cons a ws ih => simp [caller_loop, ih]

theorem countP_isTerminal_worker {α : Type} (ws : List α) :
    (ws.map (fun a => OutEv.ev (some a))).countP isTerminal = 0 := by
  induction ws with
  | nil => rfl
  | cons a ws ih => simp [List.countP_cons, isTerminal, ih]

theorem benchLoop_some_min_length (wall dev : Nat → ℚ) :
    ∀ (fuel i : Nat) (elapsed : ℚ) (acc rts : List ℚ),
      benchLoop wall dev fuel i elapsed acc = some rts →
      min_iters ≤ rts.length := by
  intro fuel
  induction fuel with
  | zero =>
      intro i elapsed acc rts h
      by_cases hc : elapsed < max_runtime ∨ acc.length < min_iters
      · simp [benchLoop, hc] at h
      · simp only [benchLoop, if_neg hc, Option.some.injEq] at h
        push_neg at hc
        subst h
        exact hc.2
  | succ f ih =>
      intro i elapsed acc rts h
      by_cases hc : elapsed < max_runtime ∨ acc.length < min_iters
      · simp only [benchLoop, if_pos hc] at h
        exact ih (i + 1) (elapsed + wall i) (acc ++ [dev i]) rts h
      · simp only [benchLoop, if_neg hc, Option.some.injEq] at h
        push_neg at hc
        subst h
        exact hc.2

theorem benchLoop_exact_of_slow (wall dev : Nat → ℚ)
    (hwall : ∀ i, max_runtime ≤ wall i) :
    ∀ (fuel i : Nat) (elapsed : ℚ) (acc rts : List ℚ),
      max_runtime ≤ elapsed → acc.length ≤ min_iters →
      benchLoop wall dev fuel i elapsed acc = some rts →
      rts.length = min_iters := by
  intro fuel
  induction fuel with
  | zero =>
      intro i elapsed acc rts he hlen h
      by_cases hc : elapsed < max_runtime ∨ acc.length < min_iters
      · simp [benchLoop, hc] at h
      · simp only [benchLoop, if_neg hc, Option.some.injEq] at h
        push_neg at hc
        subst h
        exact Nat.le_antisymm hlen hc.2
  | succ f ih =>
      intro i elapsed acc rts he hlen h
      by_cases hc : elapsed < max_runtime ∨ acc.length < min_iters
      · simp only [benchLoop, if_pos hc] at h
        have hlt : acc.length < min_iters := by
          rcases hc with hc1 | hc2
          · exact absurd hc1 (not_lt.mpr he)
          · exact hc2
        have he2 : max_runtime ≤ elapsed + wall i := by
          have hw0 : (0 : ℚ) ≤ wall i :=
            le_trans (by norm_num [max_runtime]) (hwall i)
          linarith
        have hlen2 : (acc ++ [dev i]).length ≤ min_iters := by
          simp only [List.length_append, List.length_cons, List.length_nil]
          omega
        exact ih (i + 1) (elapsed + wall i) (acc ++ [dev i]) rts he2 hlen2 h
      · simp only [benchLoop, if_neg hc, Option.some.injEq] at h
        push_neg at hc
        subst h
        exact Nat.le_antisymm hlen hc.2

theorem benchLoop_step (wall dev : Nat → ℚ) (f i : Nat) (e : ℚ) (acc : List ℚ)
    (hc : e < max_runtime ∨ acc.length < min_iters) :
    benchLoop wall dev (f + 1) i e acc
      = benchLoop wall dev f (i + 1) (e + wall i) (acc ++ [dev i]) := by
  simp only [benchLoop, if_pos hc]

theorem benchLoop_stop (wall dev : Nat → ℚ) (f i : Nat) (e : ℚ) (acc : List ℚ)
    (hc : ¬(e < max_runtime ∨ acc.length < min_iters)) :
    benchLoop wall dev f i e acc = some acc := by
  cases f with
  | zero => simp only [benchLoop, if_neg hc]
  | succ g => simp only [benchLoop, if_neg hc]

theorem benchLoop_wallSlow (dev : Nat → ℚ) :
    benchLoop wallSlow dev 5 0 0 [] = some [dev 0, dev 1, dev 2] := by
  rw [show (5 : Nat) = 4 + 1 from rfl,
    benchLoop_step wallSlow dev 4 0 0 [] (Or.inl (by norm_num [max_runtime]))]
  rw [show (4 : Nat) = 3 + 1 from rfl,
    benchLoop_step wallSlow dev 3 1 _ _ (Or.inr (by simp [min_iters]))]
  rw [show (3 : Nat) = 2 + 1 from rfl,
    benchLoop_step wallSlow dev 2 2 _ _ (Or.inr (by simp [min_iters]))]
  rw [benchLoop_stop wallSlow dev 2 3 _ _ (by norm_num [max_runtime, min_iters, wallSlow])]
  simp

theorem run_dynamic_benchmark_eval :
    run_dynamic_benchmark wallSlow devMs 1000000000 "matmul" 0 5
      = some ⟨"matmul", 0, 1000, 3⟩ := by
  have h1 := benchLoop_wallSlow devMs
  have h2 : pyListMin [devMs 0, devMs 1, devMs 2] = some ((1 : ℚ) / 1000) := by
    simp [pyListMin, devMs]
  simp only [run_dynamic_benchmark, h1, h2]
  norm_num

theorem foldl_min_mem (rs : List ℚ) : ∀ (r : ℚ), rs.foldl min r = r ∨ rs.foldl min r ∈ rs := by
  induction rs with
  | nil => intro r; left; rfl
  | cons x xs ih =>
      intro r
      rcases ih (min r x) with h | h
      · rcases le_total r x with hrx | hxr
        · left
          simp only [List.foldl_cons, h]
          exact min_eq_left hrx
        · right
          simp only [List.foldl_cons, h]
          rw [min_eq_right hxr]
          exact List.mem_cons_self x xs
      · right
        right
        simpa using h

theorem foldl_min_le (rs : List ℚ) :
    ∀ (r : ℚ), rs.foldl min r ≤ r ∧ ∀ x ∈ rs, rs.foldl min r ≤ x := by
  induction rs with
  | nil => intro r; exact ⟨le_refl r, by simp⟩
  | cons x xs ih =>
      intro r
      obtain ⟨h1, h2⟩ := ih (min r x)
      refine ⟨le_trans h1 (min_le_left r x), ?_⟩
      intro y hy
      rcases List.mem_cons.mp hy with hyx | hyxs
      · subst hyx
        exact le_trans h1 (min_le_right r y)
      · exact h2 y hyxs

theorem pyListMin_spec (rts : List ℚ) (m : ℚ) (h : pyListMin rts = some m) :
    m ∈ rts ∧ ∀ r ∈ rts, m ≤ r := by
  cases rts with
  | nil => simp [pyListMin] at h
  | cons r rs =>
      simp only [pyListMin, Option.some.injEq] at h
      subst h
      constructor
      · rcases foldl_min_mem rs r with h | h
        · simp [h]
        · simp [h]
      · intro y hy
        obtain ⟨h1, h2⟩ := foldl_min_le rs r
        rcases List.mem_cons.mp hy with hyx | hyxs
        · subst hyx; exact h1
        · exact h2 y hyxs

theorem mem_le_foldr_max (l : List Nat) : ∀ x ∈ l, x ≤ l.foldr max 0 := by
  induction l with
  | nil => simp
  | cons a as ih =>
      intro x hx
      rcases List.mem_cons.mp hx with h | h
      · subst h; exact le_max_left x (as.foldr max 0)
      · exact le_trans (ih x h) (le_max_right a (as.foldr max 0))

theorem fresh_temp_name_not_mem (fs : FileSys) :
    fresh_temp_name fs ∉ fs.map Prod.fst := by
  intro hmem
  have := mem_le_foldr_max (fs.map Prod.fst) _ hmem
  simp only [fresh_temp_name] at this
  omega

/-! ## Claim theorems -/

/-- Claim C1, counterexample: caching of compile failures does not happen.
With a toolchain that always fails for the key `keyBad`, the first call
raises `NVCCError` with the stderr text and invokes the toolchain — but the
second identical call invokes the toolchain *again*, because `lru_cache`
never stores a raised exception.  This refutes "that failure result is
cached: a second call with the identical tuple returns the same diagnostic
without invoking the external toolchain again". -/
theorem C1_counterexample :
    (run_nvcc_and_return_bytes toolFail emptyCache keyBad).result
        = CompileOutcome.nvccError "error: expected a semicolon"
    ∧ (run_nvcc_and_return_bytes toolFail emptyCache keyBad).invoked = true
    ∧ (run_nvcc_and_return_bytes toolFail
        (run_nvcc_and_return_bytes toolFail emptyCache keyBad).cache keyBad).invoked
        = true := by
  exact ⟨rfl, rfl, rfl⟩

/-- Claim C1, amended: for every (device, source, output_name) tuple not yet
cached whose compilation fails with a non-zero compiler exit status, compile
raises `NVCCError` carrying the compiler stderr text, but the failure is
*not* cached: the cache is left unchanged, and a second call with the
identical tuple invokes the external toolchain again and — the toolchain
being deterministic for identical input — produces the same diagnostic. -/
theorem C1_compile_error_not_cached (tool : CompileKey → ToolResult)
    (st : CacheState) (k : CompileKey) (sm s : String)
    (hmiss : lookupEntries st.entries k = none)
    (hgpu : lookupGpu GPU_COMPUTE_CAPABILITIES k.gpu = some sm)
    (htool : tool k = ToolResult.err s) :
    run_nvcc_and_return_bytes tool st k = ⟨CompileOutcome.nvccError s, st, true⟩
    ∧ run_nvcc_and_return_bytes tool (run_nvcc_and_return_bytes tool st k).cache k
        = ⟨CompileOutcome.nvccError s, st, true⟩ := by
  have h1 := run_miss_err tool st k sm s hmiss hgpu htool
  refine ⟨h1, ?_⟩
  rw [h1]
  exact h1

/-- Witness for C1_compile_error_not_cached at a concrete failing key. -/
theorem C1_compile_error_not_cached_witness :
    run_nvcc_and_return_bytes toolFail emptyCache keyBad
      = ⟨CompileOutcome.nvccError "error: expected a semicolon", emptyCache, true⟩
    ∧ run_nvcc_and_return_bytes toolFail
        (run_nvcc_and_return_bytes toolFail emptyCache keyBad).cache keyBad
      = ⟨CompileOutcome.nvccError "error: expected a semicolon", emptyCache, true⟩ :=
  C1_compile_error_not_cached toolFail emptyCache keyBad "75"
    "error: expected a semicolon" rfl rfl rfl

/-- Claim C2: if a channel receive exceeds the configured timeout, the caller
yields exactly one synthetic terminal event — the timeout dict with status
`TIME_LIMIT_EXCEEDED` and the message naming the configured deadline —
forcibly terminates the worker (the `true` flag models `proc.terminate()`),
and yields nothing after it, whatever else the channel would have carried. -/
theorem C2_timeout_terminal {α : Type} (t : ℚ) (ws : List α)
    (rest : List (Recv α)) :
    caller_loop t (ws.map (fun a => Recv.item (some a)) ++ Recv.timedOut :: rest)
      = (ws.map (fun a => OutEv.ev (some a)) ++ [OutEv.tle (tle_event t)], true)
    ∧ (ws.map (fun a => OutEv.ev (some a))
        ++ [OutEv.tle (tle_event t)]).countP isTerminal = 1
    ∧ (ws.map (fun a => OutEv.ev (some a))
        ++ [OutEv.tle (tle_event t)]).getLast? = some (OutEv.tle (tle_event t))
    ∧ tle_event t = ⟨"TIME_LIMIT_EXCEEDED", "Time Limit Exceeded", t⟩ := by
  refine ⟨?_, ?_, ?_, rfl⟩
  · rw [caller_loop_items]
    rfl
  · simp [List.countP_append, countP_isTerminal_worker, List.countP_cons, isTerminal]
  · exact List.getLast?_concat _

/-- Claim C3: for a worker that produces events `ws` and completes, the
caller observes exactly `ws` in order (each forwarded unchanged, no
reordering, no duplication) followed by the single terminal event — the
`None` sentinel — which is the last element of the stream. -/
theorem C3_event_ordering {α : Type} (t : ℚ) (ws : List α) :
    subproc_run t (WorkBehavior.completes ws)
      = (ws.map (fun a => OutEv.ev (some a)) ++ [OutEv.ev none], false)
    ∧ (ws.map (fun a => OutEv.ev (some a)) ++ [OutEv.ev none]).countP isTerminal = 1
    ∧ (ws.map (fun a => OutEv.ev (some a)) ++ [OutEv.ev none]).getLast?
        = some (OutEv.ev (none : Option α)) := by
  refine ⟨?_, ?_, ?_⟩
  · unfold subproc_run subproc_wrapper workerEvents
    rw [List.map_append, List.map_map]
    simpa [Function.comp] using caller_loop_items t ws [Recv.item none]
  · simp [List.countP_append, countP_isTerminal_worker, List.countP_cons, isTerminal]
  · exact List.getLast?_concat _

/-- Claim C4: a successful compile is cached under the exact argument tuple:
the second identical call returns the same bytes from the cache without
invoking the toolchain, while any different tuple (exact component-wise
string equality, so even a one-character difference) that is not already
cached still invokes the toolchain. -/
theorem C4_success_cached (tool : CompileKey → ToolResult) (st : CacheState)
    (k : CompileKey) (b : Bytes)
    (h : (run_nvcc_and_return_bytes tool st k).result = CompileOutcome.ok b) :
    (run_nvcc_and_return_bytes tool
        (run_nvcc_and_return_bytes tool st k).cache k).result = CompileOutcome.ok b
    ∧ (run_nvcc_and_return_bytes tool
        (run_nvcc_and_return_bytes tool st k).cache k).invoked = false
    ∧ ∀ k2, k2 ≠ k → lookupEntries st.entries k2 = none →
        lookupGpu GPU_COMPUTE_CAPABILITIES k2.gpu ≠ none →
        (run_nvcc_and_return_bytes tool
          (run_nvcc_and_return_bytes tool st k).cache k2).invoked = true := by
  have hl := lookup_cache_of_ok tool st k b h
  have h2 := run_hit tool (run_nvcc_and_return_bytes tool st k).cache k b hl
  refine ⟨by rw [h2], by rw [h2], ?_⟩
  intro k2 hne hnone hgpu
  exact invoked_of_miss tool _ k2 (lookup_after_run_none tool st k k2 hne hnone) hgpu

/-- Witness for C4_success_cached: concrete successful compile; the retry is
a cache hit and the whitespace-variant key still invokes the toolchain. -/
theorem C4_success_cached_witness :
    (run_nvcc_and_return_bytes toolOk
        (run_nvcc_and_return_bytes toolOk emptyCache keyGood).cache keyGood).result
      = CompileOutcome.ok [1, 2, 3]
    ∧ (run_nvcc_and_return_bytes toolOk
        (run_nvcc_and_return_bytes toolOk emptyCache keyGood).cache keyGood).invoked
      = false
    ∧ (run_nvcc_and_return_bytes toolOk
        (run_nvcc_and_return_bytes toolOk emptyCache keyGood).cache keyGood2).invoked
      = true := by
  obtain ⟨h1, h2, h3⟩ := C4_success_cached toolOk emptyCache keyGood [1, 2, 3] rfl
  exact ⟨h1, h2, h3 keyGood2 (by decide) rfl (by decide)⟩

/-- Claim C5: the driver iterates while elapsed wall-clock time is below the
one-second budget OR the sample count is below `min_iters = 3` (second and
third conjuncts state the loop-guard semantics in both directions), and for
a kernel whose every call takes at least the budget, a completed run still
collects at least `min_iters` samples — in fact exactly `min_iters`. -/
theorem C5_minimum_iterations (wall dev : Nat → ℚ) (fuel : Nat) (rts : List ℚ)
    (hwall : ∀ i, max_runtime ≤ wall i)
    (hrun : benchLoop wall dev fuel 0 0 [] = some rts) :
    min_iters ≤ rts.length ∧ rts.length = min_iters
    ∧ (∀ (f i : Nat) (e : ℚ) (acc : List ℚ),
        (e < max_runtime ∨ acc.length < min_iters) →
        benchLoop wall dev (f + 1) i e acc
          = benchLoop wall dev f (i + 1) (e + wall i) (acc ++ [dev i]))
    ∧ (∀ (f i : Nat) (e : ℚ) (acc : List ℚ),
        ¬(e < max_runtime ∨ acc.length < min_iters) →
        benchLoop wall dev f i e acc = some acc) := by
  refine ⟨benchLoop_some_min_length wall dev fuel 0 0 [] rts hrun, ?_, ?_, ?_⟩
  · cases fuel with
    | zero =>
        have hc : ((0 : ℚ) < max_runtime ∨ ([] : List ℚ).length < min_iters) :=
          Or.inl (by norm_num [max_runtime])
        simp only [benchLoop, if_pos hc] at hrun
        exact Option.noConfusion hrun
    | succ f =>
        have hc : ((0 : ℚ) < max_runtime ∨ ([] : List ℚ).length < min_iters) :=
          Or.inl (by norm_num [max_runtime])
        simp only [benchLoop, if_pos hc] at hrun
        have he : max_runtime ≤ 0 + wall 0 := by
          have := hwall 0
          linarith
        have hl : (([] : List ℚ) ++ [dev 0]).length ≤ min_iters := by
          norm_num [min_iters]
        exact benchLoop_exact_of_slow wall dev hwall f 1 (0 + wall 0)
          ([] ++ [dev 0]) rts he hl hrun
  · intro f i e acc hcc
    simp only [benchLoop, if_pos hcc]
  · intro f i e acc hcc
    cases f with
    | zero => simp only [benchLoop, if_neg hcc]
    | succ g => simp only [benchLoop, if_neg hcc]

/-- Witness for C5_minimum_iterations: a 2-second-per-call kernel still runs
exactly three timed invocations. -/
theorem C5_minimum_iterations_witness :
    min_iters ≤ ([devHalf 0, devHalf 1, devHalf 2] : List ℚ).length
    ∧ ([devHalf 0, devHalf 1, devHalf 2] : List ℚ).length = min_iters
    ∧ (∀ (f i : Nat) (e : ℚ) (acc : List ℚ),
        (e < max_runtime ∨ acc.length < min_iters) →
        benchLoop wallSlow devHalf (f + 1) i e acc
          = benchLoop wallSlow devHalf f (i + 1) (e + wallSlow i) (acc ++ [devHalf i]))
    ∧ (∀ (f i : Nat) (e : ℚ) (acc : List ℚ),
        ¬(e < max_runtime ∨ acc.length < min_iters) →
        benchLoop wallSlow devHalf f i e acc = some acc) :=
  C5_minimum_iterations wallSlow devHalf 5 [devHalf 0, devHalf 1, devHalf 2]
    (fun _ => by norm_num [wallSlow, max_runtime]) (benchLoop_wallSlow devHalf)

/-- Claim C6: whenever the benchmark returns a result, its gflops figure is
the FLOP count divided by the minimum observed per-call runtime, divided by
1e9; the minimum `m` is characterized as a member of the collected runtimes
that is a lower bound of all of them. -/
theorem C6_gflops_formula (wall dev : Nat → ℚ) (flops : ℚ) (name : String)
    (test_id fuel : Nat) (res : BenchmarkResult) (rts : List ℚ) (m : ℚ)
    (hb : benchLoop wall dev fuel 0 0 [] = some rts)
    (hm : pyListMin rts = some m)
    (hrun : run_dynamic_benchmark wall dev flops name test_id fuel = some res) :
    m ∈ rts ∧ (∀ r ∈ rts, m ≤ r) ∧ res.gflops = flops / m / 1000000000 := by
  obtain ⟨hmem, hle⟩ := pyListMin_spec rts m hm
  refine ⟨hmem, hle, ?_⟩
  simp only [run_dynamic_benchmark, hb, hm, Option.some.injEq] at hrun
  rw [← hrun]

/-- Witness for C6_gflops_formula: FLOP count 1e9 and best time 0.001 s give
gflops = 1000. -/
theorem C6_gflops_formula_witness :
    (1 : ℚ) / 1000 ∈ ([devMs 0, devMs 1, devMs 2] : List ℚ)
    ∧ (∀ r ∈ ([devMs 0, devMs 1, devMs 2] : List ℚ), (1 : ℚ) / 1000 ≤ r)
    ∧ (BenchmarkResult.mk "matmul" 0 1000 3).gflops
        = (1000000000 : ℚ) / ((1 : ℚ) / 1000) / 1000000000 :=
  C6_gflops_formula wallSlow devMs 1000000000 "matmul" 0 5
    ⟨"matmul", 0, 1000, 3⟩ [devMs 0, devMs 1, devMs 2] ((1 : ℚ) / 1000)
    (benchLoop_wallSlow devMs) (by simp [pyListMin, devMs])
    run_dynamic_benchmark_eval

/-- Claim C7, counterexample: a declared arity of 5 with only 2 supplied
input buffers, 1 output buffer and 0 scalars (3 call arguments in total) is
a mismatch, yet the adapter produces a call-ready argument list of length 3
instead of failing: Python `zip` silently truncates and no arity check
exists. -/
theorem C7_counterexample :
    prepare_call_args [10, 11, 12, 13, 14]
        [DataVal.tensor 100, DataVal.tensor 200] 900 []
      = some [CastedArg.ptrCast 100 10, CastedArg.ptrCast 200 11,
              CastedArg.ptrCast 900 12]
    ∧ ([DataVal.tensor 100, DataVal.tensor 200].length + 1
        + ([] : List DataVal).length ≠ [10, 11, 12, 13, 14].length) := by
  exact ⟨rfl, by decide⟩

/-- Claim C7, amended: the adapter performs no arity validation at all.
Whenever the declared arity exceeds the number of input buffers, argument
assembly succeeds and yields a call-ready list — even when the total
supplied count mismatches the declared arity (zip truncation); when the
declared arity is at most the number of input buffers, the lookup
`argtypes[len(input_tensors)]` raises an `IndexError` — not an
`ArityMismatch`. -/
theorem C7_no_arity_check (argtypes : List Nat) (input_tensors : List DataVal)
    (out : Nat) (extra_params : List DataVal) :
    (input_tensors.length < argtypes.length →
      (prepare_call_args argtypes input_tensors out extra_params).isSome = true)
    ∧ (argtypes.length ≤ input_tensors.length →
      prepare_call_args argtypes input_tensors out extra_params = none) := by
  constructor
  · intro h
    unfold prepare_call_args
    rw [List.get?_eq_get h]
    rfl
  · intro h
    unfold prepare_call_args
    rw [List.get?_eq_none.mpr h]

/-- Witness for C7_no_arity_check at two concrete inputs, one per branch. -/
theorem C7_no_arity_check_witness :
    (prepare_call_args [10, 11, 12] [DataVal.tensor 100] 900
        [DataVal.scalar 7]).isSome = true
    ∧ prepare_call_args [10] [DataVal.tensor 100, DataVal.tensor 200] 900 []
        = none :=
  ⟨(C7_no_arity_check [10, 11, 12] [DataVal.tensor 100] 900
      [DataVal.scalar 7]).1 (by decide),
   (C7_no_arity_check [10] [DataVal.tensor 100, DataVal.tensor 200] 900
      []).2 (by decide)⟩

/-- Claim C8: for a device name outside the fixed table (whose key set is
exactly T4, H100, A100-80GB, A10G, L40S, L4), compile raises the
configuration error (`KeyError`) with the cache untouched and without ever
invoking the compiler subprocess.  The cache hypothesis says every cached
key has a supported device, which holds for every reachable cache since only
successful compiles are inserted. -/
theorem C8_unsupported_device (tool : CompileKey → ToolResult)
    (st : CacheState) (k : CompileKey)
    (hwf : ∀ e ∈ st.entries, e.1.gpu ∈ GPU_COMPUTE_CAPABILITIES.map Prod.fst)
    (hk : k.gpu ∉ (["T4", "H100", "A100-80GB", "A10G", "L40S", "L4"] : List String)) :
    run_nvcc_and_return_bytes tool st k
      = ⟨CompileOutcome.keyError k.gpu, st, false⟩ := by
  have hmap : GPU_COMPUTE_CAPABILITIES.map Prod.fst
      = ["T4", "H100", "A100-80GB", "A10G", "L40S", "L4"] := rfl
  have hk2 : k.gpu ∉ GPU_COMPUTE_CAPABILITIES.map Prod.fst := by
    rw [hmap]
    exact hk
  have hg : lookupGpu GPU_COMPUTE_CAPABILITIES k.gpu = none :=
    (lookupGpu_eq_none_iff _ _).mpr hk2
  have hmiss : lookupEntries st.entries k = none := by
    apply lookupEntries_eq_none
    intro e he hek
    exact hk2 (hek ▸ hwf e he)
  exact run_miss_config tool st k hmiss hg

/-- Witness for C8_unsupported_device: the name V100 is not in the table. -/
theorem C8_unsupported_device_witness :
    run_nvcc_and_return_bytes toolOk emptyCache ⟨"V100", "kernel source", "solution"⟩
      = ⟨CompileOutcome.keyError "V100", emptyCache, false⟩ :=
  C8_unsupported_device toolOk emptyCache ⟨"V100", "kernel source", "solution"⟩
    (by intro e he; simp [emptyCache] at he) (by decide)

/-- Claim C9: loading artifact bytes creates a temporary file under a name
not in use by any existing file, and deletes it again before returning, on
the success path and on the failure path of the dynamic-load call alike: the
resulting filesystem equals the initial one, whatever the loader did. -/
theorem C9_temp_file_removed (cdll : Bytes → LoadOutcome) (b : Bytes)
    (fs : FileSys) :
    read_bytes_as_cuda_lib cdll b fs = (cdll b, fs)
    ∧ fresh_temp_name fs ∉ fs.map Prod.fst := by
  refine ⟨?_, fresh_temp_name_not_mem fs⟩
  simp [read_bytes_as_cuda_lib, List.eraseP_cons_of_pos]

/-- Claim C10: the worker wrapper enqueues the terminal sentinel `None` even
when the work function raises after emitting some events: the queue contents
are the emitted events followed by the sentinel, identical to those of a
normal completion with the same events, so at the protocol level the caller
cannot distinguish the two — its stream still ends with the
normal-completion terminal marker. -/
theorem C10_sentinel_after_exception {α : Type} (t : ℚ) (ws : List α) :
    subproc_wrapper (WorkBehavior.raisesAfter ws) = ws.map some ++ [none]
    ∧ subproc_wrapper (WorkBehavior.raisesAfter ws)
        = subproc_wrapper (WorkBehavior.completes ws)
    ∧ subproc_run t (WorkBehavior.raisesAfter ws)
        = subproc_run t (WorkBehavior.completes ws)
    ∧ (subproc_run t (WorkBehavior.raisesAfter ws)).1.getLast?
        = some (OutEv.ev (none : Option α)) := by
  refine ⟨rfl, rfl, rfl, ?_⟩
  show (subproc_run t (WorkBehavior.completes ws)).1.getLast?
      = some (OutEv.ev (none : Option α))
  have h3 : subproc_run t (WorkBehavior.completes ws)
      = (ws.map (fun a => OutEv.ev (some a)) ++ [OutEv.ev none], false) := by
    unfold subproc_run subproc_wrapper workerEvents
    rw [List.map_append, List.map_map]
    simpa [Function.comp] using caller_loop_items t ws [Recv.item none]
  rw [h3]
  exact List.getLast?_concat _

end Tensara
